import Mathlib

/-!
Shallow embedding of the django-chunked-upload core
(src/chunked_upload/models.py, src/chunked_upload/views.py,
src/chunked_upload/management/commands/delete_expired_uploads.py).

Modelling conventions:
* Python integers are unbounded, so byte counts, offsets and timestamps are
  `Int` (the content-range regex only matches digit groups, hence those three
  values enter as naturals, but the implicit range computes `chunk.size - 1`,
  which is `-1` for an empty chunk, so the range variables must be `Int`).
* A file's bytes are a `List Nat`.
* The record store (the ORM table) is a `List UploadRecord`; `upload_id` is
  declared `unique=True` in models.py, which theorems take as a `Nodup`
  hypothesis where they need it.
* The backing sink is owned exclusively by its record (one `FileField` per
  row), so the sink's content is stored inside the record; `get_size` reads
  the sink's length, and an "external writer" is modelled as a direct change
  to the `sink` field that leaves `offset` alone.
* `ChunkedUploadError` exceptions become an error type; `post` catches the
  exception and shapes the response, and the database is written only by
  `save()` calls on the success path, so handlers return the store alongside
  an `Except`.
* The status constants UPLOADING / COMPLETE (constants.py, not shipped under
  src/) are an enum with exactly the two values admitted by the model field's
  `choices`.
-/

deriving instance DecidableEq for Except

namespace ChunkedUpload

/-- Upload status: constants.py defines UPLOADING and COMPLETE, the only two
values allowed by the `choices` of the `status` field in models.py. -/
inductive Status where
  | uploading
  | complete
deriving DecidableEq, Repr

/-- One row of the ChunkedUpload table (models.py `AbstractChunkedUpload`)
together with the backing file it exclusively owns.
`sink` is the byte content of `self.file`'s file on disk. -/
structure UploadRecord where
  upload_id : Nat
  filename : String
  offset : Int
  status : Status
  created_on : Int
  completed_on : Option Int
  sink : List Nat
deriving DecidableEq, Repr

/-- Deployment configuration relevant to the views:
`max_bytes` (settings.MAX_BYTES / `get_max_bytes`), `fail_if_no_header`
(class attribute of ChunkedUploadView), and settings.EXPIRATION_DELTA. -/
structure Config where
  maxBytes : Option Int
  failIfNoHeader : Bool
  expirationDelta : Int
deriving Repr

/-- models.py `expires_on`: `created_on + EXPIRATION_DELTA`. -/
def expiresOn (cfg : Config) (rec : UploadRecord) : Int :=
  rec.created_on + cfg.expirationDelta

/-- models.py `expired`: `expires_on <= timezone.now()`. -/
def expired (cfg : Config) (now : Int) (rec : UploadRecord) : Bool :=
  expiresOn cfg rec ≤ now

/-- models.py `get_size`: the byte length of the backing file. -/
def get_size (rec : UploadRecord) : Int :=
  (rec.sink.length : Int)

/-- models.py `append_chunk` with `save=False`: append the chunk's bytes to
the backing file and advance `offset` by `chunk.size`. -/
def append_chunk (rec : UploadRecord) (content : List Nat) : UploadRecord :=
  { rec with sink := rec.sink ++ content
             offset := rec.offset + (content.length : Int) }

/-- The uploaded chunk as the view sees it: `chunk.name`, the bytes
(`chunk.size` is their length), and the parsed content-range header.
`contentRange = none` covers both an absent HTTP_CONTENT_RANGE header and one
the regex `bytes (\d+)-(\d+)/(\d+)` does not match; a match always yields
three naturals. -/
structure Chunk where
  name : String
  content : List Nat
  contentRange : Option (Nat × Nat × Nat)
deriving DecidableEq, Repr

/-- A chunk-append request (`ChunkedUploadView._post`): optional `upload_id`
POST field (absent or empty string → `none`) and the optional `file` part. -/
structure ChunkRequest where
  uploadId : Option Nat
  chunk : Option Chunk
deriving DecidableEq, Repr

/-- The distinct `ChunkedUploadError`s raised by the two views, each carrying
the extra payload fields the code attaches. -/
inductive UploadError where
  | noChunk
  | notFound
  | gone
  | alreadyComplete
  | badRangeStartEnd
  | headerRequired
  | badRangeEndTotal
  | sizeLimitExceeded (maxBytes : Int)
  | offsetMismatch (offset : Int)
  | chunkSizeMismatch
  | conflictingWrite (size : Int)
  | uploadIdRequired
  | badExpectedSize
  | expectedSizeMismatch (size : Int)
deriving DecidableEq, Repr

/-- The HTTP status each error is raised with in views.py. -/
def errorStatus : UploadError → Nat
  | .notFound => 404
  | .gone => 410
  | _ => 400

/-- Success payload of `ChunkedUploadView.get_response_data`:
`{upload_id, offset, expires}`. -/
structure ChunkResponse where
  upload_id : Nat
  offset : Int
  expires : Int
deriving DecidableEq, Repr

/-- First record with the given `upload_id` (`get_object_or_404` on the
queryset; `upload_id` is unique). -/
def lookup (store : List UploadRecord) (uid : Nat) : Option UploadRecord :=
  store.find? (fun r => r.upload_id = uid)

/-- Replace the record with the given `upload_id` (the ORM `save()` on an
existing row). -/
def updateRecord (store : List UploadRecord) (rec : UploadRecord) :
    List UploadRecord :=
  store.map (fun r => if r.upload_id = rec.upload_id then rec else r)

/-- views.py `ChunkedUploadView.is_valid_chunked_upload`: raise GONE if the
upload expired, then ALREADY_COMPLETE if its status is COMPLETE. -/
def is_valid_chunked_upload (cfg : Config) (now : Int) (rec : UploadRecord) :
    Except UploadError Unit :=
  if expired cfg now rec then
    .error .gone
  else if rec.status = Status.complete then
    .error .alreadyComplete
  else
    .ok ()

/-- views.py `create_chunked_upload`: a fresh record whose file starts empty
(`offset` defaults to 0, `status` to UPLOADING, `completed_on` to null). -/
def create_chunked_upload (freshId : Nat) (now : Int) (filename : String) :
    UploadRecord :=
  { upload_id := freshId
    filename := filename
    offset := 0
    status := Status.uploading
    created_on := now
    completed_on := none
    sink := [] }

/-- views.py lines 207–227: the declared byte range of the chunk, either the
three groups of a matching HTTP_CONTENT_RANGE header (checking
`start > end`), or — unless `fail_if_no_header` — the implicit range
`(0, chunk.size - 1, chunk.size)` covering the whole chunk. -/
def declaredRange (cfg : Config) (chunk : Chunk) :
    Except UploadError (Int × Int × Int) :=
  match chunk.contentRange with
  | some (s, e, t) =>
    if s > e then
      .error .badRangeStartEnd
    else
      .ok ((s : Int), (e : Int), (t : Int))
  | none =>
    if cfg.failIfNoHeader then
      .error .headerRequired
    else
      -- Use the whole size when HTTP_CONTENT_RANGE is not provided
      .ok (0, (chunk.content.length : Int) - 1, (chunk.content.length : Int))

/-- views.py line 238: `max_bytes is not None and total > max_bytes`. -/
def maxBytesCheck (cfg : Config) (total : Int) : Except UploadError Unit :=
  match cfg.maxBytes with
  | some max_bytes =>
    if total > max_bytes then .error (.sizeLimitExceeded max_bytes) else .ok ()
  | none => .ok ()

/-- The body of `ChunkedUploadView._post` from the content-range parsing
(line 207) through `append_chunk` (line 265), acting on the resolved record:
parse or imply the range, check `start > end`, then `end > total`, the
max-bytes limit, `offset != start`, `chunk.size != chunk_size` (with
`chunk_size = end - start + 1`), then compare the file's actual size with
`start` and finally append. -/
def processChunk (cfg : Config) (rec : UploadRecord) (chunk : Chunk) :
    Except UploadError UploadRecord :=
  match declaredRange cfg chunk with
  | .error e => .error e
  | .ok (start, endByte, total) =>
    if endByte > total then
      .error .badRangeEndTotal
    else
      match maxBytesCheck cfg total with
      | .error e => .error e
      | .ok () =>
        if rec.offset ≠ start then
          .error (.offsetMismatch rec.offset)
        else if (chunk.content.length : Int) ≠ endByte - start + 1 then
          .error .chunkSizeMismatch
        else if get_size rec ≠ start then
          .error (.conflictingWrite (get_size rec))
        else
          .ok (append_chunk rec chunk.content)

/-- `ChunkedUploadView._post` wrapped by `post`'s exception handler: resolve
or create the record, validate, append, persist via `_save`, and shape the
response. The store is returned unchanged on every error because the only
database writes (`save()`) happen after the last possible raise. `freshId`
stands for the generated `upload_id` of a new record and `now` for
`timezone.now()`. -/
def postChunk (cfg : Config) (now : Int) (freshId : Nat)
    (store : List UploadRecord) (req : ChunkRequest) :
    List UploadRecord × Except UploadError ChunkResponse :=
  match req.chunk with
  | none => (store, .error .noChunk)
  | some chunk =>
    let resolved : Except UploadError (UploadRecord × Bool) :=
      match req.uploadId with
      | some uid =>
        match lookup store uid with
        | none => .error .notFound
        | some rec =>
          match is_valid_chunked_upload cfg now rec with
          | .error e => .error e
          | .ok () => .ok (rec, false)
      | none => .ok (create_chunked_upload freshId now chunk.name, true)
    match resolved with
    | .error e => (store, .error e)
    | .ok (rec, isNew) =>
      match processChunk cfg rec chunk with
      | .error e => (store, .error e)
      | .ok rec' =>
        let store' := if isNew then store ++ [rec'] else updateRecord store rec'
        (store', .ok { upload_id := rec'.upload_id
                       offset := rec'.offset
                       expires := expiresOn cfg rec' })

/-- A completion request (`ChunkedUploadCompleteView._post`): `upload_id`
POST field (absent or empty string → `none`) and the raw `expected_size`
POST field (`none` when absent). -/
structure CompleteRequest where
  uploadId : Option Nat
  expectedSize : Option String
deriving DecidableEq, Repr

/-- Python truthiness of `request.POST.get('expected_size')`: absent (None)
and the empty string are falsy, any other string is truthy. -/
def truthy : Option String → Bool
  | none => false
  | some s => s ≠ ""

/-- Model of Python `int(s)` on request text: optional surrounding spaces,
an optional sign, then one or more digits; everything else raises
`ValueError`. -/
def pyInt (s : String) : Option Int :=
  let t := s.toList.dropWhile (fun c => c = ' ')
  let t := (t.reverse.dropWhile (fun c => c = ' ')).reverse
  let (neg, digits) :=
    match t with
    | '-' :: rest => (true, rest)
    | '+' :: rest => (false, rest)
    | rest => (false, rest)
  if digits = [] ∨ ¬ digits.all Char.isDigit then
    none
  else
    let n : Nat := digits.foldl (fun acc c => 10 * acc + (c.toNat - '0'.toNat)) 0
    some (if neg then -(n : Int) else (n : Int))

/-- Success payload of `ChunkedUploadCompleteView.get_response_data`:
`{size_checked: bool(request.POST.get('expected_size'))}`. -/
structure CompleteResponse where
  size_checked : Bool
deriving DecidableEq, Repr

/-- `ChunkedUploadCompleteView._post` wrapped by `post`'s exception handler.
NOTE: this view's `is_valid_chunked_upload` (views.py line 290) `return`s the
ALREADY_COMPLETE `ChunkedUploadError` instead of raising it, and `_post`
discards the returned value, so the COMPLETE check has no effect; the
embedding therefore performs no status check, exactly like the code. On
success the record's status is set to COMPLETE and `completed_on` to `now`,
and the row is saved. -/
def postComplete (now : Int) (store : List UploadRecord)
    (req : CompleteRequest) :
    List UploadRecord × Except UploadError CompleteResponse :=
  match req.uploadId with
  | none => (store, .error .uploadIdRequired)
  | some uid =>
    match lookup store uid with
    | none => (store, .error .notFound)
    | some rec =>
      -- is_valid_chunked_upload builds the ALREADY_COMPLETE error but only
      -- returns it; _post ignores the result, so nothing happens here.
      let sizeCheck : Except UploadError Unit :=
        if truthy req.expectedSize then
          match pyInt (req.expectedSize.getD "") with
          | none => .error .badExpectedSize
          | some expected =>
            if get_size rec ≠ expected then
              .error (.expectedSizeMismatch (get_size rec))
            else
              .ok ()
        else
          .ok ()
      match sizeCheck with
      | .error e => (store, .error e)
      | .ok () =>
        let rec' := { rec with status := Status.complete
                               completed_on := some now }
        (updateRecord store rec',
         .ok { size_checked := truthy req.expectedSize })

/-- models.py `delete`: removing a row also deletes its backing file; since
the sink lives inside the record, removing the first row with this
`upload_id` (the ORM deletes one row, `upload_id` being unique) removes its
sink with it. -/
def deleteById (store : List UploadRecord) (uid : Nat) : List UploadRecord :=
  match store with
  | [] => []
  | r :: rs => if r.upload_id = uid then rs else r :: deleteById rs uid

/-- Result of the `delete_expired_uploads` command: the ids it reports as
deleted, the per-status tallies it prints, and the remaining store. -/
structure SweepResult where
  deletedIds : List Nat
  uploadingCount : Nat
  completeCount : Nat
  store : List UploadRecord
deriving DecidableEq, Repr

/-- The loop body of `Command.handle` in non-interactive mode, folded over
the selected records: tally the record's status, report its id, delete it
(one record at a time, via the model's `delete`). -/
def sweepLoop (selected : List UploadRecord) (acc : SweepResult) : SweepResult :=
  match selected with
  | [] => acc
  | r :: rs =>
    sweepLoop rs
      { deletedIds := acc.deletedIds ++ [r.upload_id]
        uploadingCount :=
          acc.uploadingCount + (if r.status = Status.uploading then 1 else 0)
        completeCount :=
          acc.completeCount + (if r.status = Status.complete then 1 else 0)
        store := deleteById acc.store r.upload_id }

/-- `delete_expired_uploads.Command.handle` with `--interactive` off: select
every record with `created_on < now - EXPIRATION_DELTA` and delete each in
turn, tallying counts per prior status. -/
def sweep (cfg : Config) (now : Int) (store : List UploadRecord) : SweepResult :=
  let selected := store.filter (fun r => r.created_on < now - cfg.expirationDelta)
  sweepLoop selected
    { deletedIds := [], uploadingCount := 0, completeCount := 0, store := store }

/-- The max-bytes gate of views.py line 238 passes:
`max_bytes is None or total <= max_bytes`. -/
def withinMaxBytes (cfg : Config) (total : Int) : Bool :=
  match cfg.maxBytes with
  | some m => total ≤ m
  | none => true

/-- A sequence of chunk-append requests carrying the same `upload_id`, each
with its own request time and chunk, processed through `postChunk`; `none`
as soon as one request does not return success. -/
def runChunkRequests (cfg : Config) (freshId : Nat) (uid : Nat)
    (store : List UploadRecord) : List (Int × Chunk) → Option (List UploadRecord)
  | [] => some store
  | p :: rest =>
    match postChunk cfg p.1 freshId store { uploadId := some uid, chunk := some p.2 } with
    | (store', .ok _) => runChunkRequests cfg freshId uid store' rest
    | (_, .error _) => none

theorem append_chunk_upload_id (rec : UploadRecord) (content : List Nat) :
    (append_chunk rec content).upload_id = rec.upload_id := rfl

theorem append_chunk_sink (rec : UploadRecord) (content : List Nat) :
    (append_chunk rec content).sink = rec.sink ++ content := rfl

theorem append_chunk_offset (rec : UploadRecord) (content : List Nat) :
    (append_chunk rec content).offset = rec.offset + (content.length : Int) := rfl

/-- A successful run of the chunk pipeline appends exactly the chunk's bytes
and can only happen when the record's offset agrees with the file's actual
size (both must equal the declared start). -/
theorem processChunk_ok (cfg : Config) (rec : UploadRecord) (chunk : Chunk)
    (rec' : UploadRecord) (h : processChunk cfg rec chunk = .ok rec') :
    rec' = append_chunk rec chunk.content ∧ rec.offset = (rec.sink.length : Int) := by
  unfold processChunk at h
  repeat' first
    | exact Except.noConfusion h
    | split at h
  rename_i hoff hlen hsize
  rw [not_not] at hoff hsize
  injection h with h
  refine ⟨h.symm, ?_⟩
  unfold get_size at hsize
  omega

theorem lookup_upload_id (store : List UploadRecord) (uid : Nat)
    (rec : UploadRecord) (h : lookup store uid = some rec) :
    rec.upload_id = uid := by
  simpa using List.find?_some h

theorem lookup_updateRecord (store : List UploadRecord) (uid : Nat)
    (rec rec' : UploadRecord) (h : lookup store uid = some rec)
    (hid : rec'.upload_id = uid) :
    lookup (updateRecord store rec') uid = some rec' := by
  induction store with
  | nil => simp [lookup] at h
  | cons r rs ih =>
    unfold lookup at h
    unfold lookup updateRecord
    rw [List.map_cons]
    by_cases hr : r.upload_id = uid
    · rw [if_pos (by rw [hid]; exact hr)]
      exact List.find?_cons_of_pos _ (by simp [hid])
    · rw [if_neg (by rw [hid]; exact hr)]
      rw [List.find?_cons_of_neg _ (by simp [hr])]
      rw [List.find?_cons_of_neg _ (by simp [hr])] at h
      exact ih h

/-- Inversion of a successful chunk-append request on an existing record:
the record was found, the pipeline accepted the chunk, and the saved store
holds the appended record. -/
theorem postChunk_ok_inv (cfg : Config) (now : Int) (freshId : Nat)
    (store : List UploadRecord) (uid : Nat) (chunk : Chunk)
    (store' : List UploadRecord) (resp : ChunkResponse)
    (h : postChunk cfg now freshId store { uploadId := some uid, chunk := some chunk } =
      (store', .ok resp)) :
    ∃ rec, lookup store uid = some rec ∧
      processChunk cfg rec chunk = .ok (append_chunk rec chunk.content) ∧
      store' = updateRecord store (append_chunk rec chunk.content) := by
  unfold postChunk at h
  rcases hl : lookup store uid with _ | rec <;> simp only [hl] at h
  · exact absurd (congrArg Prod.snd h) (by simp)
  · rcases hv : is_valid_chunked_upload cfg now rec with e | u <;>
      simp only [hv] at h
    · exact absurd (congrArg Prod.snd h) (by simp)
    · rcases hp : processChunk cfg rec chunk with e | rec' <;>
        simp only [hp] at h
      · exact absurd (congrArg Prod.snd h) (by simp)
      · obtain ⟨hrec', -⟩ := processChunk_ok cfg rec chunk rec' hp
        subst hrec'
        exact ⟨rec, rfl, hp, (congrArg Prod.fst h).symm⟩

/-- Invariant carried through a successful sequence of appends on the record
with id `uid`: the final record holds the initial sink followed by every
accepted payload in order, and its offset matches its sink length. -/
theorem runChunkRequests_lookup (cfg : Config) (freshId : Nat) (uid : Nat)
    (reqs : List (Int × Chunk)) :
    ∀ store rec store', lookup store uid = some rec →
      runChunkRequests cfg freshId uid store reqs = some store' →
      ∃ rec', lookup store' uid = some rec' ∧
        rec'.sink = rec.sink ++ (reqs.map fun p => p.2.content).flatten ∧
        (rec.offset = (rec.sink.length : Int) →
          rec'.offset = (rec'.sink.length : Int)) := by
  induction reqs with
  | nil =>
    intro store rec store' hl hrun
    unfold runChunkRequests at hrun
    injection hrun with hrun
    subst hrun
    exact ⟨rec, hl, by simp, fun h => h⟩
  | cons p rest ih =>
    intro store rec store' hl hrun
    unfold runChunkRequests at hrun
    rcases hpost : postChunk cfg p.1 freshId store
        { uploadId := some uid, chunk := some p.2 } with ⟨store1, res⟩
    rw [hpost] at hrun
    rcases res with e | resp
    · exact absurd hrun (by simp)
    · obtain ⟨rec0, hl0, hproc, hstore1⟩ :=
        postChunk_ok_inv cfg p.1 freshId store uid p.2 store1 resp hpost
      rw [hl] at hl0
      injection hl0 with hl0
      subst hl0
      obtain ⟨-, hinv⟩ := processChunk_ok cfg rec p.2 _ hproc
      have hid : (append_chunk rec p.2.content).upload_id = uid := by
        rw [append_chunk_upload_id]
        exact lookup_upload_id store uid rec hl
      have hl1 : lookup store1 uid = some (append_chunk rec p.2.content) := by
        rw [hstore1]
        exact lookup_updateRecord store uid rec _ hl hid
      obtain ⟨rec', hl', hsink, hoff⟩ := ih store1 (append_chunk rec p.2.content) store' hl1 hrun
      refine ⟨rec', hl', ?_, fun _ => ?_⟩
      · rw [hsink, append_chunk_sink, List.map_cons, List.flatten_cons,
          List.append_assoc]
      · refine hoff ?_
        rw [append_chunk_sink, append_chunk_offset, hinv]
        simp

/-- C1: For every sequence of chunk-append requests on one upload record
(starting from its freshly created state: empty sink, offset 0) in which
each request returns success, the backing sink's final content equals the
concatenation of the accepted chunk payloads in acceptance order, and the
record's final offset equals the sink's byte length. -/
theorem chunk_append_contiguity (cfg : Config) (freshId uid : Nat)
    (store store' : List UploadRecord) (rec rec' : UploadRecord)
    (reqs : List (Int × Chunk))
    (hl : lookup store uid = some rec)
    (hsink : rec.sink = []) (hoff : rec.offset = 0)
    (hrun : runChunkRequests cfg freshId uid store reqs = some store')
    (hl' : lookup store' uid = some rec') :
    rec'.sink = (reqs.map fun p => p.2.content).flatten ∧
    rec'.offset = (rec'.sink.length : Int) := by
  obtain ⟨rec'', h1, h2, h3⟩ :=
    runChunkRequests_lookup cfg freshId uid reqs store rec store' hl hrun
  rw [hl'] at h1
  injection h1 with h1
  subst h1
  refine ⟨?_, h3 (by rw [hsink, hoff]; rfl)⟩
  rw [h2, hsink, List.nil_append]

def sampleConfig : Config :=
  { maxBytes := none, failIfNoHeader := false, expirationDelta := 100 }

def sampleFresh : UploadRecord := create_chunked_upload 7 0 "test-file.txt"

def sampleChunk1 : Chunk :=
  { name := "test-file.txt", content := [1, 2, 3, 4, 5, 6, 7, 8, 9],
    contentRange := some (0, 8, 14) }

def sampleChunk2 : Chunk :=
  { name := "ignored-name.txt", content := [10, 11, 12, 13, 14],
    contentRange := some (9, 13, 14) }

def sampleFinal : UploadRecord :=
  { upload_id := 7, filename := "test-file.txt", offset := 14,
    status := Status.uploading, created_on := 0, completed_on := none,
    sink := [1, 2, 3, 4, 5, 6, 7, 8, 9, 10, 11, 12, 13, 14] }

theorem chunk_append_contiguity_witness :
    sampleFinal.sink =
      (([((0 : Int), sampleChunk1), ((1 : Int), sampleChunk2)]).map
        fun p => p.2.content).flatten ∧
    sampleFinal.offset = (sampleFinal.sink.length : Int) :=
  chunk_append_contiguity sampleConfig 8 7 [sampleFresh] [sampleFinal]
    sampleFresh sampleFinal [((0 : Int), sampleChunk1), ((1 : Int), sampleChunk2)]
    (by decide) (by decide) (by decide) (by decide) (by decide)

/-- Reduction of `postChunk` for a request continuing an existing,
non-expired, non-complete record: the outcome is the chunk pipeline's, with
the appended record saved on success. -/
theorem postChunk_existing (cfg : Config) (now : Int) (freshId : Nat)
    (store : List UploadRecord) (uid : Nat) (rec : UploadRecord) (chunk : Chunk)
    (hl : lookup store uid = some rec)
    (hv : is_valid_chunked_upload cfg now rec = .ok ()) :
    postChunk cfg now freshId store { uploadId := some uid, chunk := some chunk } =
      match processChunk cfg rec chunk with
      | .error e => (store, .error e)
      | .ok rec' =>
        (updateRecord store rec',
         .ok { upload_id := rec'.upload_id, offset := rec'.offset,
               expires := expiresOn cfg rec' }) := by
  simp only [postChunk, hl, hv]
  cases processChunk cfg rec chunk <;> simp

theorem declaredRange_bad_start (cfg : Config) (chunk : Chunk) (s e t : Nat)
    (hr : chunk.contentRange = some (s, e, t)) (hse : s > e) :
    declaredRange cfg chunk = .error .badRangeStartEnd := by
  simp [declaredRange, hr, hse]

theorem declaredRange_explicit (cfg : Config) (chunk : Chunk) (s e t : Nat)
    (hr : chunk.contentRange = some (s, e, t)) (hse : ¬ s > e) :
    declaredRange cfg chunk = .ok ((s : Int), (e : Int), (t : Int)) := by
  simp [declaredRange, hr, hse]

theorem declaredRange_implicit (cfg : Config) (chunk : Chunk)
    (hr : chunk.contentRange = none) (hf : cfg.failIfNoHeader = false) :
    declaredRange cfg chunk =
      .ok (0, (chunk.content.length : Int) - 1, (chunk.content.length : Int)) := by
  unfold declaredRange
  rw [hr, hf]
  exact if_neg (by simp)

/-- The chunk pipeline after the declared range is known. -/
theorem processChunk_eq_of_range (cfg : Config) (rec : UploadRecord)
    (chunk : Chunk) (s e t : Int)
    (hd : declaredRange cfg chunk = .ok (s, e, t)) :
    processChunk cfg rec chunk =
      (if e > t then
        .error .badRangeEndTotal
      else
        match maxBytesCheck cfg t with
        | .error err => .error err
        | .ok () =>
          if rec.offset ≠ s then
            .error (.offsetMismatch rec.offset)
          else if (chunk.content.length : Int) ≠ e - s + 1 then
            .error .chunkSizeMismatch
          else if get_size rec ≠ s then
            .error (.conflictingWrite (get_size rec))
          else
            .ok (append_chunk rec chunk.content)) := by
  unfold processChunk
  rw [hd]

def sampleRec9 : UploadRecord :=
  { upload_id := 7, filename := "test-file.txt", offset := 9,
    status := Status.uploading, created_on := 0, completed_on := none,
    sink := [1, 2, 3, 4, 5, 6, 7, 8, 9] }

/-- C3 counterexample: a chunk whose explicit range declares
`end_inclusive = total` (`bytes 0-5/5` with a 6-byte chunk) is not rejected:
the code only rejects `end > total`, so the request succeeds and the bytes
are appended and persisted. -/
theorem bad_range_end_eq_total_accepted :
    (postChunk sampleConfig 0 7 []
        { uploadId := none,
          chunk := some { name := "f", content := [1, 2, 3, 4, 5, 6],
                          contentRange := some (0, 5, 5) } }) =
      ([{ upload_id := 7, filename := "f", offset := 6,
          status := Status.uploading, created_on := 0, completed_on := none,
          sink := [1, 2, 3, 4, 5, 6] }],
       .ok { upload_id := 7, offset := 6, expires := 100 }) := by decide

/-- C3 (amended): for a chunk-append request continuing an existing,
non-expired, non-complete record, an explicit range with
start > end_inclusive is rejected with a BAD_RANGE error (HTTP 400), and a
range with end_inclusive strictly greater than total is rejected with a
BAD_RANGE error (HTTP 400); in both cases no bytes are appended (the store
is unchanged). A range with end_inclusive = total is accepted by the range
check. -/
theorem bad_range_rejected (cfg : Config) (now : Int) (freshId : Nat)
    (store : List UploadRecord) (uid : Nat) (rec : UploadRecord) (chunk : Chunk)
    (s e t : Nat)
    (hl : lookup store uid = some rec)
    (hv : is_valid_chunked_upload cfg now rec = .ok ())
    (hr : chunk.contentRange = some (s, e, t)) :
    (s > e →
      postChunk cfg now freshId store { uploadId := some uid, chunk := some chunk } =
        (store, .error .badRangeStartEnd)) ∧
    (s ≤ e → t < e →
      postChunk cfg now freshId store { uploadId := some uid, chunk := some chunk } =
        (store, .error .badRangeEndTotal)) ∧
    errorStatus .badRangeStartEnd = 400 ∧ errorStatus .badRangeEndTotal = 400 := by
  refine ⟨fun hse => ?_, fun hse het => ?_, rfl, rfl⟩
  · rw [postChunk_existing cfg now freshId store uid rec chunk hl hv]
    have hd := declaredRange_bad_start cfg chunk s e t hr hse
    unfold processChunk
    rw [hd]
  · rw [postChunk_existing cfg now freshId store uid rec chunk hl hv]
    have hd := declaredRange_explicit cfg chunk s e t hr (by omega)
    rw [processChunk_eq_of_range cfg rec chunk _ _ _ hd,
      if_pos (by exact_mod_cast het)]

theorem bad_range_rejected_witness :
    (5 > 3 →
      postChunk sampleConfig 1 8 [sampleRec9]
          { uploadId := some 7,
            chunk := some { name := "g", content := [0, 0],
                            contentRange := some (5, 3, 14) } } =
        ([sampleRec9], .error .badRangeStartEnd)) ∧
    (5 ≤ 3 → 14 < 3 →
      postChunk sampleConfig 1 8 [sampleRec9]
          { uploadId := some 7,
            chunk := some { name := "g", content := [0, 0],
                            contentRange := some (5, 3, 14) } } =
        ([sampleRec9], .error .badRangeEndTotal)) ∧
    errorStatus .badRangeStartEnd = 400 ∧ errorStatus .badRangeEndTotal = 400 :=
  bad_range_rejected sampleConfig 1 8 [sampleRec9] 7 sampleRec9
    { name := "g", content := [0, 0], contentRange := some (5, 3, 14) }
    5 3 14 (by decide) (by decide) (by decide)

/-- C4: a chunk-append request on an existing, non-expired, non-complete
record whose declared range passes the structural checks (start ≤ end,
end ≤ total, total within the configured maximum) but whose declared start
differs from the record's current offset is rejected with OFFSET_MISMATCH
(HTTP 400) carrying the record's current offset, and the store is unchanged
— never a silent no-op success. -/
theorem offset_mismatch_rejected (cfg : Config) (now : Int) (freshId : Nat)
    (store : List UploadRecord) (uid : Nat) (rec : UploadRecord) (chunk : Chunk)
    (s e t : Int)
    (hl : lookup store uid = some rec)
    (hv : is_valid_chunked_upload cfg now rec = .ok ())
    (hd : declaredRange cfg chunk = .ok (s, e, t))
    (het : ¬ e > t)
    (hm : maxBytesCheck cfg t = .ok ())
    (hoff : rec.offset ≠ s) :
    postChunk cfg now freshId store { uploadId := some uid, chunk := some chunk } =
      (store, .error (.offsetMismatch rec.offset)) ∧
    errorStatus (.offsetMismatch rec.offset) = 400 := by
  refine ⟨?_, rfl⟩
  rw [postChunk_existing cfg now freshId store uid rec chunk hl hv,
    processChunk_eq_of_range cfg rec chunk s e t hd, if_neg het, hm,
    if_pos hoff]

theorem offset_mismatch_rejected_witness :
    postChunk sampleConfig 1 8 [sampleRec9]
        { uploadId := some 7,
          chunk := some { name := "g", content := [0, 0, 0, 0, 0],
                          contentRange := some (7, 11, 14) } } =
      ([sampleRec9], .error (.offsetMismatch sampleRec9.offset)) ∧
    errorStatus (.offsetMismatch sampleRec9.offset) = 400 :=
  offset_mismatch_rejected sampleConfig 1 8 [sampleRec9] 7 sampleRec9
    { name := "g", content := [0, 0, 0, 0, 0], contentRange := some (7, 11, 14) }
    7 11 14 (by decide) (by decide) (by decide) (by decide) (by decide) (by decide)

/-- C5: a chunk-append request on an existing, non-expired, non-complete
record that passes the range checks, the size-limit check, the offset check
(declared start equals the record's offset) and the chunk-size check, but
whose backing sink's actual byte length differs from the declared start, is
rejected with CONFLICTING_WRITE (HTTP 400) carrying the actual observed
size, and no bytes are appended (the store is unchanged). -/
theorem conflicting_write_rejected (cfg : Config) (now : Int) (freshId : Nat)
    (store : List UploadRecord) (uid : Nat) (rec : UploadRecord) (chunk : Chunk)
    (s e t : Int)
    (hl : lookup store uid = some rec)
    (hv : is_valid_chunked_upload cfg now rec = .ok ())
    (hd : declaredRange cfg chunk = .ok (s, e, t))
    (het : ¬ e > t)
    (hm : maxBytesCheck cfg t = .ok ())
    (hoff : rec.offset = s)
    (hlen : (chunk.content.length : Int) = e - s + 1)
    (hsz : get_size rec ≠ s) :
    postChunk cfg now freshId store { uploadId := some uid, chunk := some chunk } =
      (store, .error (.conflictingWrite (get_size rec))) ∧
    errorStatus (.conflictingWrite (get_size rec)) = 400 := by
  refine ⟨?_, rfl⟩
  rw [postChunk_existing cfg now freshId store uid rec chunk hl hv,
    processChunk_eq_of_range cfg rec chunk s e t hd, if_neg het, hm,
    if_neg (by omega), if_neg (by omega), if_pos hsz]

def sampleRec9Tampered : UploadRecord :=
  { sampleRec9 with sink := sampleRec9.sink ++ [99, 98] }

theorem conflicting_write_rejected_witness :
    postChunk sampleConfig 1 8 [sampleRec9Tampered]
        { uploadId := some 7,
          chunk := some { name := "g", content := [10, 11, 12, 13, 14],
                          contentRange := some (9, 13, 14) } } =
      ([sampleRec9Tampered], .error (.conflictingWrite (get_size sampleRec9Tampered))) ∧
    errorStatus (.conflictingWrite (get_size sampleRec9Tampered)) = 400 :=
  conflicting_write_rejected sampleConfig 1 8 [sampleRec9Tampered] 7
    sampleRec9Tampered
    { name := "g", content := [10, 11, 12, 13, 14], contentRange := some (9, 13, 14) }
    9 13 14 (by decide) (by decide) (by decide) (by decide) (by decide)
    (by decide) (by decide) (by decide)

def smallMaxConfig : Config :=
  { maxBytes := some 5, failIfNoHeader := false, expirationDelta := 100 }

/-- C10 counterexample: with a configured maximum of 5 bytes, a 10-byte
chunk without a content-range header on a record at offset 9 is rejected
with the size-limit error, not with OFFSET_MISMATCH as the claim states. -/
theorem resume_without_header_not_always_offset_mismatch :
    (postChunk smallMaxConfig 1 8 [sampleRec9]
        { uploadId := some 7,
          chunk := some { name := "g",
                          content := [0, 0, 0, 0, 0, 0, 0, 0, 0, 0],
                          contentRange := none } }).2 =
      .error (.sizeLimitExceeded 5) ∧
    (postChunk smallMaxConfig 1 8 [sampleRec9]
        { uploadId := some 7,
          chunk := some { name := "g",
                          content := [0, 0, 0, 0, 0, 0, 0, 0, 0, 0],
                          contentRange := none } }).2 ≠
      .error (.offsetMismatch sampleRec9.offset) := by decide

/-- C10 (amended): a chunk-append request that continues an existing,
non-expired, non-complete record with current offset greater than 0,
omits the content-range header (the header not being required by
configuration), and whose chunk size passes the configured maximum, is
rejected with OFFSET_MISMATCH (HTTP 400) carrying the current offset,
because the implicit range always declares start = 0; such an upload can
never be resumed past its first chunk without an explicit range header. -/
theorem resume_without_header_offset_mismatch (cfg : Config) (now : Int)
    (freshId : Nat) (store : List UploadRecord) (uid : Nat)
    (rec : UploadRecord) (chunk : Chunk)
    (hl : lookup store uid = some rec)
    (hv : is_valid_chunked_upload cfg now rec = .ok ())
    (hr : chunk.contentRange = none)
    (hf : cfg.failIfNoHeader = false)
    (hm : maxBytesCheck cfg (chunk.content.length : Int) = .ok ())
    (hoff : rec.offset > 0) :
    postChunk cfg now freshId store { uploadId := some uid, chunk := some chunk } =
      (store, .error (.offsetMismatch rec.offset)) ∧
    errorStatus (.offsetMismatch rec.offset) = 400 := by
  refine ⟨?_, rfl⟩
  rw [postChunk_existing cfg now freshId store uid rec chunk hl hv,
    processChunk_eq_of_range cfg rec chunk _ _ _
      (declaredRange_implicit cfg chunk hr hf),
    if_neg (by omega), hm, if_pos (by omega)]

theorem resume_without_header_offset_mismatch_witness :
    postChunk sampleConfig 1 8 [sampleRec9]
        { uploadId := some 7,
          chunk := some { name := "g", content := [0, 0, 0],
                          contentRange := none } } =
      ([sampleRec9], .error (.offsetMismatch sampleRec9.offset)) ∧
    errorStatus (.offsetMismatch sampleRec9.offset) = 400 :=
  resume_without_header_offset_mismatch sampleConfig 1 8 [sampleRec9] 7
    sampleRec9 { name := "g", content := [0, 0, 0], contentRange := none }
    (by decide) (by decide) (by decide) (by decide) (by decide) (by decide)

def sampleCompleted : UploadRecord :=
  { upload_id := 7, filename := "test-file.txt", offset := 9,
    status := Status.complete, created_on := 0, completed_on := some 10,
    sink := [1, 2, 3, 4, 5, 6, 7, 8, 9] }

/-- C2 (code bug): with a COMPLETE record, the chunk-append view does reject
with an ALREADY_COMPLETE error (HTTP 400), but a completion request for the
same record is NOT rejected: `ChunkedUploadCompleteView.is_valid_chunked_upload`
returns the constructed error instead of raising it and `_post` discards the
returned value, so the completion call succeeds with HTTP 200. -/
theorem already_complete_not_enforced_on_completion :
    (postChunk sampleConfig 1 8 [sampleCompleted]
        { uploadId := some 7,
          chunk := some { name := "g", content := [10, 11, 12, 13, 14],
                          contentRange := some (9, 13, 14) } }).2 =
      .error .alreadyComplete ∧
    errorStatus .alreadyComplete = 400 ∧
    (postComplete 20 [sampleCompleted]
        { uploadId := some 7, expectedSize := none }).2 =
      .ok { size_checked := false } := by decide

/-- C8 (code bug): `completed_on` is not set exactly once — a second
completion request on an already-completed record succeeds (see C2) and
overwrites `completed_on` with the new completion time. -/
theorem completed_on_overwritten :
    [sampleCompleted].map (fun r => r.completed_on) = [some 10] ∧
    ((postComplete 20 [sampleCompleted]
        { uploadId := some 7, expectedSize := none }).1.map
      (fun r => r.completed_on)) = [some 20] := by decide

/-- C9: every chunk-append request that returns an error leaves the record
store unchanged: an existing record keeps its offset, status, filename and
completed_on, and no new record is persisted when the request carried no
upload_id. -/
theorem chunk_append_error_preserves_store (cfg : Config) (now : Int)
    (freshId : Nat) (store store' : List UploadRecord) (req : ChunkRequest)
    (e : UploadError)
    (h : postChunk cfg now freshId store req = (store', .error e)) :
    store' = store := by
  rcases req with ⟨uidOpt, chunkOpt⟩
  simp only [postChunk] at h
  repeat' first
    | split at h
    | exact (congrArg Prod.fst h).symm
    | exact absurd (congrArg Prod.snd h) (by simp)

theorem chunk_append_error_preserves_store_witness :
    [sampleRec9] = [sampleRec9] :=
  chunk_append_error_preserves_store sampleConfig 1 8 [sampleRec9] [sampleRec9]
    { uploadId := some 7,
      chunk := some { name := "g", content := [0, 0, 0, 0, 0],
                      contentRange := some (7, 11, 14) } }
    (.offsetMismatch 9) (by decide)

/-- C6: a completion request that supplies a non-empty expected_size is
rejected with HTTP 400 when the value does not parse as an integer, and
with SIZE_MISMATCH (HTTP 400) carrying the actual sink size when it parses
to a value different from the sink's byte length; in both cases the store —
and so the record's status and completed_on — is unchanged. -/
theorem complete_expected_size_gate (now : Int) (store : List UploadRecord)
    (uid : Nat) (rec : UploadRecord) (es : String)
    (hl : lookup store uid = some rec) (hes : es ≠ "") :
    (pyInt es = none →
      postComplete now store { uploadId := some uid, expectedSize := some es } =
        (store, .error .badExpectedSize)) ∧
    (pyInt es ≠ none → pyInt es ≠ some (get_size rec) →
      postComplete now store { uploadId := some uid, expectedSize := some es } =
        (store, .error (.expectedSizeMismatch (get_size rec)))) ∧
    errorStatus .badExpectedSize = 400 ∧
    errorStatus (.expectedSizeMismatch (get_size rec)) = 400 := by
  have ht : truthy (some es) = true := by simp [truthy, hes]
  refine ⟨fun hp => ?_, fun hp1 hp2 => ?_, rfl, rfl⟩
  · simp only [postComplete, hl, ht, Option.getD, hp, if_true]
  · rcases hn : pyInt es with _ | n
    · exact absurd hn hp1
    · have hne : get_size rec ≠ n := fun hEq => hp2 (by rw [hn, hEq])
      simp only [postComplete, hl, ht, Option.getD, hn, if_true, if_pos hne]

theorem complete_expected_size_gate_witness :
    (pyInt "14" = none →
      postComplete 2 [sampleRec9] { uploadId := some 7, expectedSize := some "14" } =
        ([sampleRec9], .error .badExpectedSize)) ∧
    (pyInt "14" ≠ none → pyInt "14" ≠ some (get_size sampleRec9) →
      postComplete 2 [sampleRec9] { uploadId := some 7, expectedSize := some "14" } =
        ([sampleRec9], .error (.expectedSizeMismatch (get_size sampleRec9)))) ∧
    errorStatus .badExpectedSize = 400 ∧
    errorStatus (.expectedSizeMismatch (get_size sampleRec9)) = 400 :=
  complete_expected_size_gate 2 [sampleRec9] 7 sampleRec9 "14"
    (by decide) (by decide)

theorem deleteById_cons_ne (r : UploadRecord) (st : List UploadRecord)
    (uid : Nat) (h : r.upload_id ≠ uid) :
    deleteById (r :: st) uid = r :: deleteById st uid := by
  show (if r.upload_id = uid then st else r :: deleteById st uid) = _
  rw [if_neg h]

theorem foldl_deleteById_cons (r : UploadRecord) (sel : List UploadRecord) :
    ∀ st, (∀ x ∈ sel, x.upload_id ≠ r.upload_id) →
      sel.foldl (fun acc x => deleteById acc x.upload_id) (r :: st) =
        r :: sel.foldl (fun acc x => deleteById acc x.upload_id) st := by
  induction sel with
  | nil => intro st _; rfl
  | cons x xs ih =>
    intro st h
    have hx : r.upload_id ≠ x.upload_id := Ne.symm (h x (by simp))
    rw [List.foldl_cons, List.foldl_cons, deleteById_cons_ne r st x.upload_id hx]
    exact ih (deleteById st x.upload_id) (fun y hy => h y (by simp [hy]))

/-- Deleting, one by one, each record selected by `p` from a store whose ids
are unique leaves exactly the records not selected by `p`. -/
theorem foldl_deleteById_filter (p : UploadRecord → Bool) :
    ∀ store : List UploadRecord, (store.map (fun r => r.upload_id)).Nodup →
      (store.filter p).foldl (fun acc x => deleteById acc x.upload_id) store =
        store.filter (fun r => ! p r) := by
  intro store
  induction store with
  | nil => intro _; rfl
  | cons r rs ih =>
    intro hnodup
    rw [List.map_cons, List.nodup_cons] at hnodup
    obtain ⟨hr, hnd⟩ := hnodup
    by_cases hp : p r
    · rw [List.filter_cons_of_pos (by simpa using hp), List.foldl_cons]
      have hdel : deleteById (r :: rs) r.upload_id = rs := by
        unfold deleteById
        rw [if_pos rfl]
      rw [hdel, ih hnd, List.filter_cons_of_neg (by simpa using hp)]
    · rw [List.filter_cons_of_neg (by simpa using hp)]
      have hmem : ∀ x ∈ rs.filter p, x.upload_id ≠ r.upload_id := by
        intro x hxmem hex
        exact hr (hex ▸ List.mem_map_of_mem _ (List.mem_of_mem_filter hxmem))
      rw [foldl_deleteById_cons r (rs.filter p) rs hmem, ih hnd,
        List.filter_cons_of_pos (by simpa using hp)]

theorem sweepLoop_spec (selected : List UploadRecord) :
    ∀ acc : SweepResult,
      (sweepLoop selected acc).deletedIds =
        acc.deletedIds ++ selected.map (fun r => r.upload_id) ∧
      (sweepLoop selected acc).uploadingCount =
        acc.uploadingCount +
          (selected.filter (fun r => r.status = Status.uploading)).length ∧
      (sweepLoop selected acc).completeCount =
        acc.completeCount +
          (selected.filter (fun r => r.status = Status.complete)).length ∧
      (sweepLoop selected acc).store =
        selected.foldl (fun acc x => deleteById acc x.upload_id) acc.store := by
  induction selected with
  | nil => intro acc; simp [sweepLoop]
  | cons r rs ih =>
    intro acc
    unfold sweepLoop
    obtain ⟨h1, h2, h3, h4⟩ := ih
      { deletedIds := acc.deletedIds ++ [r.upload_id]
        uploadingCount :=
          acc.uploadingCount + (if r.status = Status.uploading then 1 else 0)
        completeCount :=
          acc.completeCount + (if r.status = Status.complete then 1 else 0)
        store := deleteById acc.store r.upload_id }
    refine ⟨?_, ?_, ?_, ?_⟩
    · rw [h1]
      simp
    · rw [h2]
      dsimp only
      rcases hst : r.status with _ | _ <;> simp [hst] <;> omega
    · rw [h3]
      dsimp only
      rcases hst : r.status with _ | _ <;> simp [hst] <;> omega
    · rw [h4]
      rfl

/-- C7: a non-interactive sweep at time `now` with the configured expiration
delta deletes exactly the records with `created_on < now - delta` (each with
its backing file, which the record owns), leaves every other record
untouched, and reports the deleted ids in order together with the
per-prior-status tallies. -/
theorem sweep_deletes_exactly_expired (cfg : Config) (now : Int)
    (store : List UploadRecord)
    (hnodup : (store.map (fun r => r.upload_id)).Nodup) :
    (sweep cfg now store).store =
      store.filter (fun r => ¬ r.created_on < now - cfg.expirationDelta) ∧
    (sweep cfg now store).deletedIds =
      (store.filter (fun r => r.created_on < now - cfg.expirationDelta)).map
        (fun r => r.upload_id) ∧
    (sweep cfg now store).uploadingCount =
      ((store.filter (fun r => r.created_on < now - cfg.expirationDelta)).filter
        (fun r => r.status = Status.uploading)).length ∧
    (sweep cfg now store).completeCount =
      ((store.filter (fun r => r.created_on < now - cfg.expirationDelta)).filter
        (fun r => r.status = Status.complete)).length := by
  unfold sweep
  obtain ⟨h1, h2, h3, h4⟩ := sweepLoop_spec
    (store.filter (fun r => r.created_on < now - cfg.expirationDelta))
    { deletedIds := [], uploadingCount := 0, completeCount := 0, store := store }
  refine ⟨?_, by simpa using h1, by simpa using h2, by simpa using h3⟩
  rw [h4]
  dsimp only
  have := foldl_deleteById_filter
    (fun r => decide (r.created_on < now - cfg.expirationDelta)) store hnodup
  rw [this]
  refine List.filter_congr ?_
  intro r _
  rw [← decide_not, decide_eq_decide]

def sweepStoreSample : List UploadRecord :=
  [{ upload_id := 1, filename := "a", offset := 0, status := Status.uploading,
     created_on := 50, completed_on := none, sink := [] },
   { upload_id := 2, filename := "b", offset := 3, status := Status.complete,
     created_on := 95, completed_on := some 96, sink := [5, 5, 5] },
   { upload_id := 3, filename := "c", offset := 0, status := Status.complete,
     created_on := 80, completed_on := some 81, sink := [] }]

def sweepConfigSample : Config :=
  { maxBytes := none, failIfNoHeader := false, expirationDelta := 10 }

theorem sweep_deletes_exactly_expired_witness :
    (sweep sweepConfigSample 100 sweepStoreSample).store =
      sweepStoreSample.filter
        (fun r => ¬ r.created_on < 100 - sweepConfigSample.expirationDelta) ∧
    (sweep sweepConfigSample 100 sweepStoreSample).deletedIds =
      (sweepStoreSample.filter
        (fun r => r.created_on < 100 - sweepConfigSample.expirationDelta)).map
        (fun r => r.upload_id) ∧
    (sweep sweepConfigSample 100 sweepStoreSample).uploadingCount =
      ((sweepStoreSample.filter
        (fun r => r.created_on < 100 - sweepConfigSample.expirationDelta)).filter
        (fun r => r.status = Status.uploading)).length ∧
    (sweep sweepConfigSample 100 sweepStoreSample).completeCount =
      ((sweepStoreSample.filter
        (fun r => r.created_on < 100 - sweepConfigSample.expirationDelta)).filter
        (fun r => r.status = Status.complete)).length :=
  sweep_deletes_exactly_expired sweepConfigSample 100 sweepStoreSample (by decide)

end ChunkedUpload

